import Mathlib

/-!
Verification of `pysmac/utils/smac_output_readers.py`.

The central piece is a shallow embedding of `json_parse` (lines 10-26 of the
source), the streaming multi-document JSON reader, together with the JSON
value decoder it delegates to (`json.JSONDecoder().raw_decode` from the
Python standard library, embedded below from the reference implementation in
CPython `json/decoder.py` and `json/scanner.py`).  The other file readers of
the module (`map_run_result`, `read_instance_features_file`,
`read_validationCallStrings_file`) are embedded over the list of lines of
their input file; `IndexError` / `NameError` outcomes are modelled with
`Except String`.

Python strings are modelled as `List Char` / `String` (Python slicing is by
character, matching `List Char` indexing).  Floating point numbers never
need to be computed by any claim; a float literal scanned by the decoder is
kept as its source text.
-/

/-- JSON values as produced by Python's `json` module.  A dict is modelled as
the list of its key/value pairs in insertion order; a float literal is kept
as its source text (no claim computes with floats). -/
inductive Json where
  | null : Json
  | bool (b : Bool) : Json
  | num (n : Int) : Json
  | numFloat (lit : String) : Json
  | str (s : String) : Json
  | arr (elems : List Json) : Json
  | obj (pairs : List (String × Json)) : Json

/-- The whitespace characters skipped *inside* a JSON value by CPython's
decoder (`WHITESPACE = re.compile(r'[ \t\n\r]*')` in `json/decoder.py`). -/
def isJsonWs (c : Char) : Bool := c = ' ' || c = '\t' || c = '\n' || c = '\r'

/-- Skip JSON-internal whitespace, as `_w(s, end).end()` does in CPython. -/
def skipWs (cs : List Char) : List Char := cs.dropWhile isJsonWs

/-- Value of a hex digit, if the character is one. -/
def hexVal (c : Char) : Option Nat :=
  if '0' ≤ c ∧ c ≤ '9' then some (c.toNat - 48)
  else if 'a' ≤ c ∧ c ≤ 'f' then some (c.toNat - 87)
  else if 'A' ≤ c ∧ c ≤ 'F' then some (c.toNat - 55)
  else none

/-- Read exactly four hex digits (the `XXXX` of a `\uXXXX` escape). -/
def hex4 : List Char → Option (Nat × List Char)
  | a :: b :: c :: d :: rest => do
    let va ← hexVal a
    let vb ← hexVal b
    let vc ← hexVal c
    let vd ← hexVal d
    some (((va * 16 + vb) * 16 + vc) * 16 + vd, rest)
  | _ => none

/-- The single-character escapes of `json/decoder.py` (`BACKSLASH` table). -/
def escMap (c : Char) : Option Char :=
  if c = '"' then some '"'
  else if c = '\\' then some '\\'
  else if c = '/' then some '/'
  else if c = 'b' then some (Char.ofNat 8)
  else if c = 'f' then some (Char.ofNat 12)
  else if c = 'n' then some '\n'
  else if c = 'r' then some '\r'
  else if c = 't' then some '\t'
  else none

/-- CPython `py_scanstring` (strict mode, the default): scan the body of a
string literal, `cs` starting just after the opening quote.  Returns the
decoded content and the characters after the closing quote; `none` models
the `JSONDecodeError` raised for an unterminated string, an invalid escape
or a raw control character.  A lone surrogate (kept by CPython as a lone
surrogate code unit) is collapsed to U+0000 by `Char.ofNat`; no input of any
claim contains one.  Fuel is at least the length of `cs`, enough because
every step consumes at least one character. -/
def scanStringAux : Nat → List Char → List Char → Option (String × List Char)
  | 0, _, _ => none
  | fuel + 1, acc, cs =>
    match cs with
    | [] => none
    | c :: rest =>
      if c = '"' then some (String.mk acc.reverse, rest)
      else if c = '\\' then
        match rest with
        | [] => none
        | e :: rest2 =>
          if e = 'u' then
            match hex4 rest2 with
            | none => none
            | some (n, rest3) =>
              if 0xd800 ≤ n ∧ n ≤ 0xdbff then
                match rest3 with
                | '\\' :: 'u' :: rest4 =>
                  match hex4 rest4 with
                  | none => none
                  | some (n2, rest5) =>
                    if 0xdc00 ≤ n2 ∧ n2 ≤ 0xdfff then
                      scanStringAux fuel
                        (Char.ofNat (0x10000 + (n - 0xd800) * 0x400 + (n2 - 0xdc00)) :: acc) rest5
                    else scanStringAux fuel (Char.ofNat n :: acc) rest3
                | _ => scanStringAux fuel (Char.ofNat n :: acc) rest3
              else scanStringAux fuel (Char.ofNat n :: acc) rest3
          else
            match escMap e with
            | some d => scanStringAux fuel (d :: acc) rest2
            | none => none
      else if c.toNat < 0x20 then none
      else scanStringAux fuel (c :: acc) rest

/-- Scan a string literal body (see `scanStringAux`). -/
def scanString (cs : List Char) : Option (String × List Char) :=
  scanStringAux (cs.length + 1) [] cs

/-- CPython `NUMBER_RE = (-?(?:0|[1-9]\d+|[1-9]))(\.\d+)?([eE][-+]?\d+)?`
matched at the current position: an optional sign, an integer part that is
`0` or a nonzero-led digit run, then optional fraction and exponent groups.
Returns `Json.num` when only the integer part matched (CPython builds an
`int`), otherwise `Json.numFloat` carrying the matched literal. -/
def parseNumber (cs : List Char) : Option (Json × List Char) :=
  let (sign, cs1) : List Char × List Char :=
    match cs with
    | '-' :: r => (['-'], r)
    | _ => ([], cs)
  match cs1 with
  | c :: r =>
    if c = '0' ∨ ('1' ≤ c ∧ c ≤ '9') then
      let (intDigits, rest) : List Char × List Char :=
        if c = '0' then ([c], r)
        else (c :: r.takeWhile Char.isDigit, r.dropWhile Char.isDigit)
      let (frac, rest2) : List Char × List Char :=
        match rest with
        | '.' :: r2 =>
          let ds := r2.takeWhile Char.isDigit
          if ds.isEmpty then ([], rest) else ('.' :: ds, r2.dropWhile Char.isDigit)
        | _ => ([], rest)
      let (expo, rest3) : List Char × List Char :=
        match rest2 with
        | e :: r3 =>
          if e = 'e' ∨ e = 'E' then
            let (sgn, r4) : List Char × List Char :=
              match r3 with
              | s :: r5 => if s = '+' ∨ s = '-' then ([s], r5) else ([], r3)
              | [] => ([], r3)
            let ds := r4.takeWhile Char.isDigit
            if ds.isEmpty then ([], rest2) else (e :: (sgn ++ ds), r4.dropWhile Char.isDigit)
          else ([], rest2)
        | [] => ([], rest2)
      if frac.isEmpty ∧ expo.isEmpty then
        let mag : Nat := intDigits.foldl (fun a d => a * 10 + (d.toNat - 48)) 0
        some (Json.num (if sign.isEmpty then (mag : Int) else -(mag : Int)), rest)
      else
        some (Json.numFloat (String.mk (sign ++ intDigits ++ frac ++ expo)), rest3)
    else none
  | [] => none

mutual

/-- CPython `py_make_scanner`'s `_scan_once`: decode one JSON value starting
exactly at the head of `cs` (leading whitespace is *not* skipped, exactly as
in `JSONDecoder.raw_decode`).  `none` models `StopIteration`/`JSONDecodeError`,
both of which surface as `ValueError` to callers.  Every recursive call
consumes at least one character per two fuel units, so fuel
`2 * cs.length + 4` always suffices. -/
def scanValue : Nat → List Char → Option (Json × List Char)
  | 0, _ => none
  | fuel + 1, cs =>
    match cs with
    | [] => none
    | c :: rest =>
      if c = '"' then
        match scanString rest with
        | some (s, r) => some (Json.str s, r)
        | none => none
      else if c = '{' then scanObject fuel (skipWs rest)
      else if c = '[' then scanArray fuel rest
      else if cs.take 4 = ['n', 'u', 'l', 'l'] then some (Json.null, cs.drop 4)
      else if cs.take 4 = ['t', 'r', 'u', 'e'] then some (Json.bool true, cs.drop 4)
      else if cs.take 5 = ['f', 'a', 'l', 's', 'e'] then some (Json.bool false, cs.drop 5)
      else
        match parseNumber cs with
        | some vr => some vr
        | none =>
          if cs.take 3 = ['N', 'a', 'N'] then some (Json.numFloat "NaN", cs.drop 3)
          else if cs.take 8 = ['I', 'n', 'f', 'i', 'n', 'i', 't', 'y'] then
            some (Json.numFloat "Infinity", cs.drop 8)
          else if cs.take 9 = ['-', 'I', 'n', 'f', 'i', 'n', 'i', 't', 'y'] then
            some (Json.numFloat "-Infinity", cs.drop 9)
          else none

/-- CPython `JSONObject`, after the `{` with leading whitespace skipped:
either an immediate `}` (empty dict) or a `"` opening the first key. -/
def scanObject : Nat → List Char → Option (Json × List Char)
  | 0, _ => none
  | fuel + 1, cs =>
    match cs with
    | '}' :: rest => some (Json.obj [], rest)
    | '"' :: rest => scanMembers fuel rest []
    | _ => none

/-- The key/value loop of CPython `JSONObject`; `cs` starts just after the
opening quote of the next key. -/
def scanMembers : Nat → List Char → List (String × Json) → Option (Json × List Char)
  | 0, _, _ => none
  | fuel + 1, cs, acc =>
    match scanString cs with
    | none => none
    | some (key, cs1) =>
      match skipWs cs1 with
      | ':' :: cs2 =>
        match scanValue fuel (skipWs cs2) with
        | none => none
        | some (v, cs3) =>
          match skipWs cs3 with
          | '}' :: rest => some (Json.obj (acc ++ [(key, v)]), rest)
          | ',' :: cs4 =>
            match skipWs cs4 with
            | '"' :: cs5 => scanMembers fuel cs5 (acc ++ [(key, v)])
            | _ => none
          | _ => none
      | _ => none

/-- CPython `JSONArray`, `cs` starting just after the `[`. -/
def scanArray : Nat → List Char → Option (Json × List Char)
  | 0, _ => none
  | fuel + 1, cs =>
    match skipWs cs with
    | ']' :: rest => some (Json.arr [], rest)
    | cs1 => scanItems fuel cs1 []

/-- The element loop of CPython `JSONArray`. -/
def scanItems : Nat → List Char → List Json → Option (Json × List Char)
  | 0, _, _ => none
  | fuel + 1, cs, acc =>
    match scanValue fuel cs with
    | none => none
    | some (v, cs1) =>
      match skipWs cs1 with
      | ']' :: rest => some (Json.arr (acc ++ [v]), rest)
      | ',' :: cs2 => scanItems fuel (skipWs cs2) (acc ++ [v])
      | _ => none

end

/-- `json.JSONDecoder().raw_decode(buffer)`: decode one JSON value starting
at index 0 of the buffer — leading whitespace is rejected — and report the
index of the first unconsumed character.  `none` models the `ValueError`
(`JSONDecodeError`) raised on failure. -/
def raw_decode (cs : List Char) : Option (Json × Nat) :=
  match scanValue (2 * cs.length + 4) cs with
  | some (v, rest) => some (v, cs.length - rest.length)
  | none => none

/-- The two characters stripped by `buffer.strip(' \n')` at line 18 of the
source — the space and the newline, and no others. -/
def isSpNl (c : Char) : Bool := c = ' ' || c = '\n'

/-- Python `buffer.strip(' \n')`: remove every leading and every trailing
character that is a space or a newline (line 18 of the source). -/
def pyStripSpNl (cs : List Char) : List Char :=
  ((cs.dropWhile isSpNl).reverse.dropWhile isSpNl).reverse

/-- The buffer as it stands at the start of the decode loop of one chunk
iteration: `buffer += chunk; buffer = buffer.strip(' \n')`
(lines 17-18 of the source). -/
def bufferStep (buffer chunk : List Char) : List Char :=
  pyStripSpNl (buffer ++ chunk)

/-- The chunk sequence produced by `iter(functools.partial(fileobj.read,
buffersize), '')` over a source holding `cs`: successive slices of
`buffersize` characters, ending at the first empty read.  (`read(0)`
returns the empty string at once, so a zero buffersize produces no chunks.)
Fuel `cs.length` suffices since every step consumes at least one character. -/
def chunksOfAux (bs : Nat) : Nat → List Char → List (List Char)
  | 0, _ => []
  | fuel + 1, cs => if cs.isEmpty then [] else cs.take bs :: chunksOfAux bs fuel (cs.drop bs)

/-- See `chunksOfAux`. -/
def chunksOf (bs : Nat) (cs : List Char) : List (List Char) :=
  if bs = 0 then [] else chunksOfAux bs cs.length cs

/-- The `while buffer:` loop of `json_parse` (lines 19-26 of the source):
repeatedly attempt `raw_decode` on the buffer; on success yield the value
and drop the consumed prefix (`buffer = buffer[index:]`, with no further
stripping); on `ValueError` break.  Returns the values yielded during this
chunk iteration, the buffer contents at the start of each decode attempt,
and the buffer left when the loop exits.  A successful decode consumes at
least one character, so fuel `buffer.length + 1` always suffices. -/
def parseLoop : Nat → List Char → List Json × List String × List Char
  | 0, buf => ([], [], buf)
  | fuel + 1, buf =>
    if buf.isEmpty then ([], [], buf)
    else
      match raw_decode buf with
      | some (v, idx) =>
        match parseLoop fuel (buf.drop idx) with
        | (vs, atts, left) => (v :: vs, String.mk buf :: atts, left)
      | none => ([], [String.mk buf], buf)

/-- The chunk loop of `json_parse` (lines 16-26 of the source): for each
chunk, append it to the buffer, strip spaces and newlines from both ends,
then run the decode loop; the buffer surviving the decode loop is carried
to the next chunk iteration.  When the chunks run out (the source is
exhausted) the generator simply ends, with the last buffer left over. -/
def feedChunks : List (List Char) → List Char → List Json × List String × List Char
  | [], buf => ([], [], buf)
  | chunk :: rest, buf =>
    let b := bufferStep buf chunk
    match parseLoop (b.length + 1) b with
    | (vs1, atts1, buf2) =>
      match feedChunks rest buf2 with
      | (vs2, atts2, left) => (vs1 ++ vs2, atts1 ++ atts2, left)

/-- `json_parse(fileobj, decoder, buffersize)` of the source, over a file
whose full content is `content`, read in chunks of `buffersize` characters.
Returns the complete sequence of yielded values, the trace of buffer
contents at the start of every decode attempt, and the buffer contents when
the source is exhausted and the generator ends.  Note that the generator
has no raising path: the only statement that can raise, `raw_decode`, sits
in a `try` whose `except ValueError` clause breaks out of the decode loop,
so every run terminates by source exhaustion. -/
def json_parse (content : String) (buffersize : Nat) : List Json × List String × String :=
  match feedChunks (chunksOf buffersize content.toList) [] with
  | (vs, atts, left) => (vs, atts, String.mk left)

/-- The values yielded by `json_parse`. -/
def jsonParseValues (content : String) (buffersize : Nat) : List Json :=
  (json_parse content buffersize).1

/-- The buffer contents at the start of each decode attempt of `json_parse`. -/
def jsonParseAttempts (content : String) (buffersize : Nat) : List String :=
  (json_parse content buffersize).2.1

/-- The buffer left when `json_parse`'s source is exhausted. -/
def jsonParseLeftover (content : String) (buffersize : Nat) : String :=
  (json_parse content buffersize).2.2

/-- Modelled from the spec (section 4, algorithm steps 1-3), as the
reference point for the round-trip claim: read the whole stream, and
repeatedly trim leading whitespace and decode one value from the front,
emitting each decoded value; succeeds when the trimmed remainder is empty.
This is the emitted-value sequence the spec promises for a well-formed
stream. -/
def specStreamValuesAux : Nat → List Char → Option (List Json)
  | 0, _ => none
  | fuel + 1, cs =>
    let t := cs.dropWhile isJsonWs
    if t.isEmpty then some []
    else
      match scanValue (2 * t.length + 4) t with
      | none => none
      | some (v, rest) =>
        match specStreamValuesAux fuel rest with
        | none => none
        | some vs => some (v :: vs)

/-- See `specStreamValuesAux`. -/
def specStreamValues (content : String) : Option (List Json) :=
  specStreamValuesAux (content.length + 1) content.toList

/-- Python's `needle in hay` on strings/bytes: contiguous substring test. -/
def containsSub (needle : List Char) : List Char → Bool
  | [] => needle.isEmpty
  | h :: t => needle.isPrefixOf (h :: t) || containsSub needle t

/-- `map_run_result` (lines 49-53 of the source), the converter applied by
`read_runs_and_results_file` to the status column: `TIMEOUT` is tested
first, then `UNSAT` (deliberately before `SAT`, which it contains), then
`SAT`; anything else falls through to `-1`. -/
def map_run_result (res : String) : Int :=
  if containsSub "TIMEOUT".toList res.toList then 0
  else if containsSub "UNSAT".toList res.toList then 1
  else if containsSub "SAT".toList res.toList then 2
  else -1

/-- The message of a Python `IndexError: list index out of range`. -/
def idxErr : String := "IndexError: list index out of range"

/-- The message of the `NameError` raised when the undefined global `join`
is evaluated. -/
def nameErrJoin : String := "NameError: name join is not defined"

/-- The module-level lookup of the name `join` used at line 141 of the
source (`np.array(join(tmp[1:]), dtype=np.double)`).  The module imports
only `json`, `functools`, `re`, `operator` and `numpy as np`, and defines
no `join`, so evaluating the name raises `NameError` on every call. -/
def joinLookup : Except String (List String → String) :=
  Except.error nameErrJoin

/-- The characters removed by Python's argumentless `str.strip()`. -/
def isPyWs (c : Char) : Bool :=
  c = ' ' || c = '\t' || c = '\n' || c = '\r' || c = Char.ofNat 11 || c = Char.ofNat 12

/-- Python `line.strip()` (no argument): trim ASCII whitespace on both ends. -/
def pyStripDefault (s : String) : String :=
  String.mk (((s.toList.dropWhile isPyWs).reverse.dropWhile isPyWs).reverse)

/-- Python `s.split(sep)` for a one-character separator: split at every
occurrence, keeping empty fields (`''.split(',') == ['']`). -/
def pySplitAux (sep : Char) : List Char → List Char → List String
  | acc, [] => [String.mk acc.reverse]
  | acc, c :: r =>
    if c = sep then String.mk acc.reverse :: pySplitAux sep [] r
    else pySplitAux sep (c :: acc) r

/-- See `pySplitAux`. -/
def pySplit (sep : Char) (s : String) : List String := pySplitAux sep [] s.toList

/-- One iteration of the loop at lines 139-141 of the source:
`tmp = line.strip().split(","); instances[tmp[0]] = np.array(join(tmp[1:]),
dtype=np.double)`.  Evaluating the right-hand side first evaluates the
undefined name `join`, which raises `NameError` before any numeric
conversion happens, so the continuation after the lookup is unreachable
(no feature vector is ever built). -/
def featLine (line : String) : Except String (String × List Float) := do
  let tmp := pySplit ',' (pyStripDefault line)
  let _j ← joinLookup
  Except.error ("unreachable: numeric conversion of " ++ String.intercalate "," (tmp.drop 1))

/-- The `for line in lines[1:]` loop of `read_instance_features_file`,
collecting the per-instance entries in insertion order. -/
def featLoop : List String → Except String (List (String × List Float))
  | [] => Except.ok []
  | line :: rest => do
    let p ← featLine line
    let ps ← featLoop rest
    Except.ok (p :: ps)

/-- `read_instance_features_file` (lines 131-142 of the source) over the
list of lines returned by `fh.readlines()`: run the data-line loop, then
return `(lines[0].split(",")[1:], instances)`.  The dict of instances is
modelled as the list of its insertions in order. -/
def read_instance_features_file (lines : List String) :
    Except String (List String × List (String × List Float)) := do
  let instances ← featLoop (lines.drop 1)
  match lines.head? with
  | some l0 => Except.ok ((pySplit ',' l0).drop 1, instances)
  | none => Except.error idxErr

/-- The single-quote character (written by code point to keep string
literals free of quote characters). -/
def squote : Char := Char.ofNat 39

/-- Python `s.strip(c)` for a one-character argument: remove every leading
and every trailing occurrence of `c`. -/
def stripCharBoth (c : Char) (s : String) : String :=
  String.mk (((s.toList.dropWhile (· = c)).reverse.dropWhile (· = c)).reverse)

/-- Python `s.lstrip(c)` for a one-character argument. -/
def lstripChar (c : Char) (s : String) : String :=
  String.mk (s.toList.dropWhile (· = c))

/-- The loop `for i in range(0, len(config_string), 2):
tmp_dict[config_string[i].lstrip('-')] = config_string[i+1].strip("'")`
(lines 97-98 of the source).  A trailing unpaired token makes
`config_string[i+1]` an out-of-range access, raising `IndexError` (and
discarding the partially built dict, as a Python exception does).  The dict
is modelled as the list of its insertions in order. -/
def pairLoop : List String → Except String (List (String × String))
  | [] => Except.ok []
  | [_] => Except.error idxErr
  | x :: y :: rest => do
    let ps ← pairLoop rest
    Except.ok ((lstripChar '-' x, stripCharBoth squote y) :: ps)

/-- One non-header line of `read_validationCallStrings_file` (lines 94-99
of the source): `config_string = line.split(",")[1].strip('"')`, split on
single spaces, then the pairing loop. -/
def procLine (line : String) : Except String (List (String × String)) :=
  match (pySplit ',' line)[1]? with
  | none => Except.error idxErr
  | some f => pairLoop (pySplit ' ' (stripCharBoth '"' f))

/-- The line loop of `read_validationCallStrings_file`: process each
non-header line in order, an exception aborting the whole call. -/
def vcsLoop : List String → Except String (List (List (String × String)))
  | [] => Except.ok []
  | line :: rest => do
    let d ← procLine line
    let ds ← vcsLoop rest
    Except.ok (d :: ds)

/-- `read_validationCallStrings_file` (lines 86-100 of the source) over the
list of lines returned by `fh.readlines()`: skip the header line and run
the per-line loop. -/
def read_validationCallStrings_file (lines : List String) :
    Except String (List (List (String × String))) :=
  vcsLoop (lines.drop 1)

/-- The tokens at even positions (0, 2, 4, …) of a list. -/
def evenIdx : List α → List α
  | [] => []
  | [x] => [x]
  | x :: _ :: rest => x :: evenIdx rest

/-- The tokens at odd positions (1, 3, 5, …) of a list. -/
def oddIdx : List α → List α
  | [] => []
  | [_] => []
  | _ :: y :: rest => y :: oddIdx rest

/-- The dictionary the claim describes for a token list of even length:
each flag token (even position, leading dashes stripped) paired with the
token that follows it (surrounding single quotes stripped).  Stated via
position filtering and zipping, independently of the source's index loop. -/
def pairsSpec (tokens : List String) : List (String × String) :=
  ((evenIdx tokens).zip (oddIdx tokens)).map
    (fun fv => (lstripChar '-' fv.1, stripCharBoth squote fv.2))

/-- The dictionary the claim assigns to one non-header line (junk value
`[]` when the line has no second comma field; the claims' preconditions
exclude that case). -/
def lineDict (line : String) : List (String × String) :=
  match (pySplit ',' line)[1]? with
  | none => []
  | some f => pairsSpec (pySplit ' ' (stripCharBoth '"' f))

/-! Concrete inputs used by the claims.  String literals are assembled from
character lists so that the file contains no brace or quote characters
inside string literals; each definition's comment shows the intended text. -/

/-- The JSON value decoded from the text `{"a":1}`. -/
def objA : Json := Json.obj [("a", Json.num 1)]

/-- The JSON value decoded from the text `{"b":2}`. -/
def objB : Json := Json.obj [("b", Json.num 2)]

/-- The input `{"a":1}\n{"b":2}`: two JSON objects separated by a newline,
the format the docstring of `json_parse` names (15 characters). -/
def exABl : List Char := ['{', '"', 'a', '"', ':', '1', '}', '\n', '{', '"', 'b', '"', ':', '2', '}']

/-- See `exABl`. -/
def exAB : String := String.mk exABl

/-- The input `{"a":1} not-json {"b":2}` of the malformed-propagation claim
(24 characters). -/
def exNJl : List Char :=
  ['{', '"', 'a', '"', ':', '1', '}', ' ', 'n', 'o', 't', '-', 'j', 's', 'o', 'n',
   ' ', '{', '"', 'b', '"', ':', '2', '}']

/-- See `exNJl`. -/
def exNJ : String := String.mk exNJl

/-- The input `{"a":1}\n\n   {"b":2}\n` of the clean-trailing-whitespace
claim (20 characters). -/
def exWSl : List Char :=
  ['{', '"', 'a', '"', ':', '1', '}', '\n', '\n', ' ', ' ', ' ',
   '{', '"', 'b', '"', ':', '2', '}', '\n']

/-- See `exWSl`. -/
def exWS : String := String.mk exWSl

/-- The input `{"a":1} {"b":2}`: two objects separated by one space
(15 characters). -/
def exSPl : List Char :=
  ['{', '"', 'a', '"', ':', '1', '}', ' ', '{', '"', 'b', '"', ':', '2', '}']

/-- See `exSPl`. -/
def exSP : String := String.mk exSPl

/-- The input `{"a":1} {"b":` of the dropped-tail claim: one complete
object, then a truncated fragment (13 characters). -/
def exDTl : List Char :=
  ['{', '"', 'a', '"', ':', '1', '}', ' ', '{', '"', 'b', '"', ':']

/-- See `exDTl`. -/
def exDT : String := String.mk exDTl

/-- The input `{"a":"x y"} {"b":`: a complete object whose string value
contains a space, then a truncated fragment (17 characters). -/
def exC6l : List Char :=
  ['{', '"', 'a', '"', ':', '"', 'x', ' ', 'y', '"', '}', ' ', '{', '"', 'b', '"', ':']

/-- See `exC6l`. -/
def exC6 : String := String.mk exC6l

/-- The input `{"a":"x y"}`: a single object whose string value contains a
space (11 characters). -/
def ex9l : List Char :=
  ['{', '"', 'a', '"', ':', '"', 'x', ' ', 'y', '"', '}']

/-- See `ex9l`. -/
def ex9 : String := String.mk ex9l

/-- The input `\t{"a":1}`: one object preceded by a tab. -/
def exTabl : List Char := ['\t', '{', '"', 'a', '"', ':', '1', '}']

/-- See `exTabl`. -/
def exTab : String := String.mk exTabl

/-- The input ` {"a":1}`: one object preceded by a space. -/
def exSpcl : List Char := [' ', '{', '"', 'a', '"', ':', '1', '}']

/-- See `exSpcl`. -/
def exSpc : String := String.mk exSpcl

/-- A header line for a validationCallStrings file. -/
def hdrLine : String := "id,conf"

/-- The line `1,"-a 'x' -b 'y'"`: a run id and a quoted configuration
string with an even number of space-separated tokens. -/
def lineEven : String :=
  String.mk ['1', ',', '"', '-', 'a', ' ', squote, 'x', squote, ' ',
             '-', 'b', ' ', squote, 'y', squote, '"']

/-- The second comma field of `lineEven`: `"-a 'x' -b 'y'"`. -/
def lineEvenF : String :=
  String.mk ['"', '-', 'a', ' ', squote, 'x', squote, ' ',
             '-', 'b', ' ', squote, 'y', squote, '"']

/-- The line `1,"-a 'x' -b"`: its quoted configuration splits into three
tokens, an odd count. -/
def lineOdd : String :=
  String.mk ['1', ',', '"', '-', 'a', ' ', squote, 'x', squote, ' ', '-', 'b', '"']

/-- The second comma field of `lineOdd`: `"-a 'x' -b"`. -/
def lineOddF : String :=
  String.mk ['"', '-', 'a', ' ', squote, 'x', squote, ' ', '-', 'b', '"']

/-! Helper lemmas about `takeWhile`, `dropWhile` and the two-sided strip. -/

/-- Every element of `takeWhile p l` satisfies `p`. -/
theorem all_takeWhile (p : Char → Bool) (l : List Char) : (l.takeWhile p).all p = true := by
  induction l with
  | nil => rfl
  | cons c r ih =>
    cases hp : p c with
    | false => simp [List.takeWhile_cons, hp]
    | true => simp [List.takeWhile_cons, hp, ih]

/-- The head of `dropWhile p l`, when it exists, fails `p`. -/
theorem take_one_all_dropWhile (p : Char → Bool) (l : List Char) :
    ((l.dropWhile p).take 1).all (fun x => !p x) = true := by
  induction l with
  | nil => rfl
  | cons c r ih =>
    cases hp : p c with
    | false => simp [List.dropWhile_cons, hp]
    | true => simpa [List.dropWhile_cons, hp] using ih

/-- A nonempty prefix of a list shares its first element with the list. -/
theorem take_one_all_of_append (f : Char → Bool) (core rest X : List Char)
    (hX : X = core ++ rest) (h : (X.take 1).all f = true) : (core.take 1).all f = true := by
  cases core with
  | nil => rfl
  | cons a t => subst hX; simpa using h

/-- Splitting off the trailing run of `p`-elements: any list is its
right-strip followed by its reversed trailing `p`-run. -/
theorem rstrip_decomp (p : Char → Bool) (m : List Char) :
    (m.reverse.dropWhile p).reverse ++ (m.reverse.takeWhile p).reverse = m := by
  rw [← List.reverse_append, List.takeWhile_append_dropWhile, List.reverse_reverse]

/-- `all` is invariant under reversal. -/
theorem all_reverse_eq (p : Char → Bool) (l : List Char) : l.reverse.all p = l.all p := by
  simp

/-- C9.  After appending each chunk, `json_parse` strips exactly the
characters space and newline — and only those two — from both the leading
and the trailing end of the working buffer before any decode attempt
(`buffer = buffer.strip(' \n')`, line 18): the buffer entering the decode
loop is obtained from `buffer ++ chunk` by removing a prefix and a suffix
made only of spaces and newlines, maximally so (its ends, when present, are
neither space nor newline), while tabs and carriage returns survive at the
ends.  Consequently, a chunk ending with a space that lies inside a
not-yet-complete string literal loses that space: `{"a":"x y"}` read in
chunks of 8 yields the value `{"a":"xy"}` (first decode attempt sees the
stripped buffer `{"a":"x`), whereas read in one chunk it yields
`{"a":"x y"}`; and a leading tab, unlike a leading space, is never stripped
and blocks decoding entirely. -/
theorem json_parse_c9_strip_both_ends :
    (∀ buffer chunk : List Char,
      (∃ pre suf : List Char,
          buffer ++ chunk = pre ++ bufferStep buffer chunk ++ suf
          ∧ pre.all (fun x => x = ' ' || x = '\n') = true
          ∧ suf.all (fun x => x = ' ' || x = '\n') = true)
      ∧ ((bufferStep buffer chunk).take 1).all (fun x => !(x = ' ' || x = '\n')) = true
      ∧ ((bufferStep buffer chunk).reverse.take 1).all (fun x => !(x = ' ' || x = '\n')) = true)
    ∧ bufferStep [] ['\t', 'x', '\r'] = ['\t', 'x', '\r']
    ∧ json_parse ex9 8 =
        ([Json.obj [("a", Json.str "xy")]],
         [String.mk ['{', '"', 'a', '"', ':', '"', 'x'],
          String.mk ['{', '"', 'a', '"', ':', '"', 'x', 'y', '"', '}']], "")
    ∧ jsonParseValues ex9 2048 = [Json.obj [("a", Json.str "x y")]]
    ∧ jsonParseValues exTab 2048 = []
    ∧ jsonParseValues exSpc 2048 = [objA] := by
  refine ⟨?_, rfl, rfl, rfl, rfl, rfl⟩
  intro buffer chunk
  have key := rstrip_decomp isSpNl ((buffer ++ chunk).dropWhile isSpNl)
  refine ⟨⟨(buffer ++ chunk).takeWhile isSpNl,
           (((buffer ++ chunk).dropWhile isSpNl).reverse.takeWhile isSpNl).reverse,
           ?_, ?_, ?_⟩, ?_, ?_⟩
  · conv_lhs => rw [← List.takeWhile_append_dropWhile (p := isSpNl) (l := buffer ++ chunk),
                    ← key]
    rw [bufferStep, pyStripSpNl, List.append_assoc]
  · exact all_takeWhile isSpNl (buffer ++ chunk)
  · rw [all_reverse_eq]
    exact all_takeWhile isSpNl ((buffer ++ chunk).dropWhile isSpNl).reverse
  · exact take_one_all_of_append _ (bufferStep buffer chunk)
      ((((buffer ++ chunk).dropWhile isSpNl).reverse.takeWhile isSpNl).reverse)
      ((buffer ++ chunk).dropWhile isSpNl) key.symm
      (take_one_all_dropWhile isSpNl (buffer ++ chunk))
  · rw [bufferStep, pyStripSpNl, List.reverse_reverse]
    exact take_one_all_dropWhile isSpNl ((buffer ++ chunk).dropWhile isSpNl).reverse

/-! Helper lemmas for the validationCallStrings reader. -/

/-- `bind` on a successful `Except` applies the continuation. -/
theorem exceptBind_ok {α β : Type} (v : α) (k : α → Except String β) :
    (Except.ok v >>= k) = k v := rfl

/-- `bind` on a failed `Except` propagates the error. -/
theorem exceptBind_error {α β : Type} (e : String) (k : α → Except String β) :
    ((Except.error e : Except String α) >>= k) = Except.error e := rfl

/-- On an even number of tokens the index loop succeeds and produces
exactly the even/odd pairing. -/
theorem pairLoop_even : ∀ cs : List String, cs.length % 2 = 0 →
    pairLoop cs = Except.ok (pairsSpec cs)
  | [], _ => rfl
  | [_], h => by simp at h
  | x :: y :: rest, h => by
    have hr : rest.length % 2 = 0 := by simp [List.length_cons] at h; omega
    have ih := pairLoop_even rest hr
    simp [pairLoop, ih, pairsSpec, evenIdx, oddIdx, exceptBind_ok]

/-- On an odd number of tokens the final `config_string[i+1]` access is out
of range and the loop raises `IndexError`. -/
theorem pairLoop_odd : ∀ cs : List String, cs.length % 2 = 1 →
    pairLoop cs = Except.error idxErr
  | [], h => by simp at h
  | [_], _ => rfl
  | _ :: _ :: rest, h => by
    have hr : rest.length % 2 = 1 := by simp [List.length_cons] at h; omega
    have ih := pairLoop_odd rest hr
    simp [pairLoop, ih, exceptBind_error]

/-- A line whose quoted configuration field exists and has evenly many
tokens is processed into its even/odd pairing. -/
theorem procLine_ok (line f : String) (hf : (pySplit ',' line)[1]? = some f)
    (he : (pySplit ' ' (stripCharBoth '"' f)).length % 2 = 0) :
    procLine line = Except.ok (lineDict line) := by
  simp [procLine, lineDict, hf, pairLoop_even _ he]

/-- A line whose quoted configuration field exists and has oddly many
tokens raises `IndexError`. -/
theorem procLine_error (line f : String) (hf : (pySplit ',' line)[1]? = some f)
    (ho : (pySplit ' ' (stripCharBoth '"' f)).length % 2 = 1) :
    procLine line = Except.error idxErr := by
  simp [procLine, hf, pairLoop_odd _ ho]

/-- When every line processes cleanly, the line loop returns one dict per
line, in order. -/
theorem vcsLoop_ok : ∀ ls : List String,
    (∀ l ∈ ls, procLine l = Except.ok (lineDict l)) →
    vcsLoop ls = Except.ok (ls.map lineDict) := by
  intro ls
  induction ls with
  | nil => intro _; rfl
  | cons l rest ih =>
    intro h
    have h1 := h l (by simp)
    have h2 := ih (fun x hx => h x (by simp [hx]))
    simp [vcsLoop, h1, h2, exceptBind_ok]

/-- If some line raises, the whole call raises. -/
theorem vcsLoop_error : ∀ ls : List String,
    (∃ l ∈ ls, procLine l = Except.error idxErr) →
    ∃ e, vcsLoop ls = Except.error e := by
  intro ls
  induction ls with
  | nil => rintro ⟨l, hl, _⟩; simp at hl
  | cons x rest ih =>
    rintro ⟨l, hl, he⟩
    rcases List.mem_cons.mp hl with rfl | hmem
    · exact ⟨idxErr, by simp [vcsLoop, he, exceptBind_error]⟩
    · cases hc : procLine x with
      | error e => exact ⟨e, by simp [vcsLoop, hc, exceptBind_error]⟩
      | ok d =>
        obtain ⟨e, he2⟩ := ih ⟨l, hmem, he⟩
        exact ⟨e, by simp [vcsLoop, hc, he2, exceptBind_ok, exceptBind_error]⟩

/-- C10.  `read_validationCallStrings_file` requires every non-header line
to split its quoted configuration field into evenly many space-separated
tokens; under that precondition it returns one dictionary per non-header
line, pairing each flag (leading dashes stripped) with the following token
(surrounding single quotes stripped); and whenever some line has an odd
token count the call raises `IndexError` instead of returning. -/
theorem read_validationCallStrings_c10_contract :
    (∀ lines : List String,
      (∀ line ∈ lines.drop 1, ∃ f, (pySplit ',' line)[1]? = some f
        ∧ (pySplit ' ' (stripCharBoth '"' f)).length % 2 = 0) →
      read_validationCallStrings_file lines = Except.ok ((lines.drop 1).map lineDict))
    ∧ (∀ lines : List String,
      (∃ line ∈ lines.drop 1, ∃ f, (pySplit ',' line)[1]? = some f
        ∧ (pySplit ' ' (stripCharBoth '"' f)).length % 2 = 1) →
      ∃ e, read_validationCallStrings_file lines = Except.error e) := by
  constructor
  · intro lines h
    exact vcsLoop_ok _ (fun l hl => by
      obtain ⟨f, hf, he⟩ := h l hl
      exact procLine_ok l f hf he)
  · rintro lines ⟨l, hl, f, hf, ho⟩
    exact vcsLoop_error _ ⟨l, hl, procLine_error l f hf ho⟩

/-- Witness for C10: on the file `id,conf` / `1,"-a 'x' -b 'y'"` the call
returns the single dict pairing `a` with `x` and `b` with `y`; on
`id,conf` / `1,"-a 'x' -b"` (three tokens) it raises. -/
theorem read_validationCallStrings_c10_contract_witness :
    read_validationCallStrings_file [hdrLine, lineEven] =
      Except.ok [[("a", "x"), ("b", "y")]]
    ∧ ∃ e, read_validationCallStrings_file [hdrLine, lineOdd] = Except.error e := by
  constructor
  · have h := read_validationCallStrings_c10_contract.1 [hdrLine, lineEven] (by
      intro l hl
      simp only [List.drop_succ_cons, List.drop_zero, List.mem_singleton] at hl
      subst hl
      exact ⟨lineEvenF, by decide, by decide⟩)
    exact h.trans (by rfl)
  · exact read_validationCallStrings_c10_contract.2 [hdrLine, lineOdd]
      ⟨lineOdd, by simp, lineOddF, by decide, by decide⟩

/-- C1.  Round-trip completeness fails: the stream `{"a":1}\n{"b":2}`
serializes two well-formed JSON values separated by a newline (the spec's
reference reading decodes exactly those two values, in order), yet
`json_parse` reading it in a single chunk (buffersize 2048 > 15) yields
only the first value: after the first decode the remainder `\n{"b":2}`
keeps its leading newline, which `raw_decode` rejects, and the source is
then exhausted, so the second value is dropped. -/
theorem json_parse_c1_roundtrip_failure :
    specStreamValues exAB = some [objA, objB]
    ∧ jsonParseValues exAB 2048 = [objA] :=
  ⟨rfl, rfl⟩

/-- C2 counterexample.  On `{"a":1} not-json {"b":2}` (one chunk) the
generator yields `{"a":1}` and then returns normally at source exhaustion
with the malformed text still sitting in the buffer — the `ValueError`
raised inside the decode loop is caught by the `except ValueError: break`
clause (line 24), which has no re-raising path, so no malformed-input
error ever reaches the consumer, contradicting the claim that one is
raised.  The second conjunct records that the leftover never decodes. -/
theorem json_parse_c2_counterexample :
    json_parse exNJ 2048 =
      ([objA], [exNJ, String.mk (exNJl.drop 7)], String.mk (exNJl.drop 7))
    ∧ raw_decode (pyStripSpNl (exNJl.drop 7)) = none :=
  ⟨rfl, rfl⟩

set_option maxHeartbeats 1600000 in
/-- C2 amended.  On `{"a":1} not-json {"b":2}` the generator yields exactly
`{"a":1}` and then ends silently when the source is exhausted, for every
buffersize from 1 to the full input length (24): the decode failure on the
malformed text is swallowed like an incomplete-input condition, `{"b":2}`
is never emitted, no error reaches the consumer, and the undecoded text is
still buffered at exhaustion. -/
theorem json_parse_c2_silent_end :
    ∀ bs : Nat, bs < 24 →
      jsonParseValues exNJ (bs + 1) = [objA] ∧ jsonParseLeftover exNJ (bs + 1) ≠ "" := by
  intro bs h
  interval_cases bs <;> exact ⟨rfl, by decide⟩

/-- Witness for C2: the amended behaviour at buffersize 24 (one chunk). -/
theorem json_parse_c2_silent_end_witness :
    jsonParseValues exNJ 24 = [objA] ∧ jsonParseLeftover exNJ 24 ≠ "" :=
  json_parse_c2_silent_end 23 (by decide)

set_option maxHeartbeats 800000 in
/-- C3.  Chunk-size invariance fails: on `{"a":1}\n{"b":2}` (full length
15) a buffersize of 1 yields both values while a buffersize of 15 (the
full input in one chunk) yields only the first. -/
theorem json_parse_c3_chunk_size_dependence :
    jsonParseValues exAB 1 = [objA, objB]
    ∧ jsonParseValues exAB 15 = [objA]
    ∧ exAB.length = 15 :=
  ⟨rfl, rfl, rfl⟩

set_option maxHeartbeats 800000 in
/-- C4.  On `{"a":1}\n\n   {"b":2}\n` the claim promises two values for
every chunking, but a single-chunk read (buffersize 2048 > 20) yields only
`{"a":1}`: the inter-value whitespace is still at the head of the buffer
after the first decode, the re-attempt fails on it, and the source ends.
With buffersize 1 the whitespace is trimmed as chunks arrive and both
values appear. -/
theorem json_parse_c4_trailing_whitespace_failure :
    jsonParseValues exWS 2048 = [objA]
    ∧ jsonParseValues exWS 1 = [objA, objB] :=
  ⟨rfl, rfl⟩

/-- C5.  The working-buffer invariant fails on the re-attempted decode
after a success: reading `{"a":1} {"b":2}` in one chunk, the second decode
attempt receives the buffer ` {"b":2}` — the separating space, supposedly
never passed to the decoder, is its first character (`buffer[index:]` at
line 23 is not re-trimmed) — and that attempt therefore fails, after which
the second value is lost at exhaustion. -/
theorem json_parse_c5_buffer_invariant_failure :
    json_parse exSP 2048 =
      ([objA], [exSP, String.mk (exSPl.drop 7)], String.mk (exSPl.drop 7))
    ∧ (exSPl.drop 7).take 1 = [' '] :=
  ⟨rfl, rfl⟩

/-- C6 counterexample.  The dropped-tail claim promises that when the
source ends with the buffer holding an incomplete fragment, exactly the
complete values that preceded the fragment are yielded.  On the stream
`{"a":"x y"} {"b":` — whose first complete value is `{"a":"x y"}`, as the
first conjunct records — read with buffersize 8, a chunk boundary falls
after the space inside the string literal; the trailing strip removes that
space, and the run ends with the pure fragment `{"b":` buffered but yields
`{"a":"xy"}`, a value different from the complete value that preceded the
fragment. -/
theorem json_parse_c6_counterexample :
    raw_decode exC6l = some (Json.obj [("a", Json.str "x y")], 11)
    ∧ jsonParseValues exC6 8 = [Json.obj [("a", Json.str "xy")]]
    ∧ jsonParseLeftover exC6 8 = String.mk ['{', '"', 'b', '"', ':']
    ∧ Json.obj [("a", Json.str "xy")] ≠ Json.obj [("a", Json.str "x y")] := by
  refine ⟨rfl, rfl, rfl, ?_⟩
  simp

set_option maxHeartbeats 800000 in
/-- C6 amended.  When the source is exhausted while the buffer holds a
non-empty undecoded remainder, the generator ends with no error and the
remainder is silently discarded; the values yielded are those the decode
loop produced, which can differ from the complete source values when a
chunk boundary interacts with the trailing strip (see the counterexample).
For the claim's own example `{"a":1} {"b":` every buffersize from 1 to the
full length (13) yields exactly `{"a":1}` with the fragment left in the
buffer, and an empty source yields an empty sequence with an empty
buffer. -/
theorem json_parse_c6_dropped_tail :
    (∀ bs : Nat, bs < 13 →
      jsonParseValues exDT (bs + 1) = [objA] ∧ jsonParseLeftover exDT (bs + 1) ≠ "")
    ∧ jsonParseValues "" 2048 = [] ∧ jsonParseLeftover "" 2048 = "" := by
  refine ⟨?_, rfl, rfl⟩
  intro bs h
  interval_cases bs <;> exact ⟨rfl, by decide⟩

/-- Witness for C6: the amended behaviour at buffersize 13 (one chunk). -/
theorem json_parse_c6_dropped_tail_witness :
    jsonParseValues exDT 13 = [objA] ∧ jsonParseLeftover exDT 13 ≠ "" :=
  json_parse_c6_dropped_tail.1 12 (by decide)

/-- C7.  `read_instance_features_file` never returns on a file with a
header and at least one data line: processing the first data line
evaluates `join(tmp[1:])` and the name `join` is neither defined in the
module nor imported, so the call raises
`NameError: name 'join' is not defined` instead of returning the promised
(feature names, instance features) pair. -/
theorem read_instance_features_c7_name_error :
    ∀ (l0 l1 : String) (rest : List String),
      read_instance_features_file (l0 :: l1 :: rest) = Except.error nameErrJoin := by
  intro l0 l1 rest
  rfl

/-- C8.  The status column converter of `read_runs_and_results_file` is a
fixed total lookup: the literal `TIMEOUT` maps to 0, `UNSAT` to 1, `SAT`
to 2 (substring containment, tested in that order), and every string
containing none of the recognized status substrings maps to the single
fallback code -1, so the converter always yields a number. -/
theorem map_run_result_c8_total_lookup :
    map_run_result "SAT" = 2
    ∧ map_run_result "UNSAT" = 1
    ∧ map_run_result "TIMEOUT" = 0
    ∧ ∀ res : String,
        containsSub "TIMEOUT".toList res.toList = false →
        containsSub "UNSAT".toList res.toList = false →
        containsSub "SAT".toList res.toList = false →
        map_run_result res = -1 := by
  refine ⟨by decide, by decide, by decide, ?_⟩
  intro res h1 h2 h3
  simp at h1 h2 h3
  simp [map_run_result, h1, h2, h3]

/-- Witness for C8: `CRASHED` contains no recognized status substring and
maps to the fallback code -1. -/
theorem map_run_result_c8_total_lookup_witness :
    containsSub "TIMEOUT".toList "CRASHED".toList = false
    ∧ containsSub "UNSAT".toList "CRASHED".toList = false
    ∧ containsSub "SAT".toList "CRASHED".toList = false
    ∧ map_run_result "CRASHED" = -1 :=
  ⟨by decide, by decide, by decide,
   map_run_result_c8_total_lookup.2.2.2 "CRASHED" (by decide) (by decide) (by decide)⟩
